import Mathlib

/-!
Shallow embedding of `src/video-processor/transcoder.py` (class `VideoTranscoder`).

Modelling conventions:
* The external world (filesystem, ffprobe, ffmpeg) is an explicit `Env` of
  oracles: the probe outcome and, per label / per thumbnail index, whether the
  corresponding external process exits zero.  The code treats a non-zero exit
  (`subprocess.CalledProcessError`) as the only process failure mode.
* Python exceptions that escape a function are modelled with `Except PyError`;
  a caught exception is handled inside the definition, mirroring the
  `try/except` blocks of the source.
* All output paths are modelled relative to the per-video output directory
  (`self.output_dir / video_id`), since the claims only concern path identity,
  not absolute path strings.
* Floating point durations and frame rates are modelled as `ℚ`.
* `dict` values are modelled as insertion-ordered association lists, which is
  the observable behaviour of Python dicts (needed for the manifest ordering
  claims).
-/

namespace VideoTranscoder

/-! ### Numeric string parsing helpers -/

/-- Digit-string to `Nat` parse of a character list: succeeds exactly on a
nonempty all-digit list, the behaviour of Python `int(...)` on the nonnegative
strings that occur here. -/
def pyInt? (cs : List Char) : Option Nat :=
  if cs ≠ [] ∧ cs.all Char.isDigit then
    some (cs.foldl (fun a c => a * 10 + (c.toNat - 48)) 0)
  else none

/-- Embeds int(preset["bitrate"].replace("k", "")) (lines 179 and 228):
removing every occurrence of the one-character pattern "k" and parsing the
rest as an integer.  All catalog bitrate strings parse successfully, so the
`getD 0` default is never reached on catalog data. -/
def kbpsOf (s : String) : Nat :=
  (pyInt? (s.data.filter (fun c => c != 'k'))).getD 0

/-! ### Model of the generic expression evaluator applied to `r_frame_rate`

Line 153 of the source is eval(video_stream.get("r_frame_rate", "0/1")):
the frame-rate string is handed to Python `eval`, a generic expression
evaluator.  We embed the fragment of Python expression evaluation sufficient
for the strings at issue: integer literals combined with the operators `+`
(addition) and `/` (true division), evaluated left to right with `/` binding
tighter than `+`.  A string outside this fragment, or a division by zero,
raises (`none`, propagated as `PyError.evalError`).  The point of the model is
that `eval` accepts and numerically executes well-formed *expressions* that
are not `num/den` fractions, e.g. `"1+1"`. -/

/-- Read a leading nonempty digit run as a `Nat`, returning the rest. -/
def readNat (cs : List Char) : Option (Nat × List Char) :=
  let ds := cs.takeWhile Char.isDigit
  if ds = [] then none
  else some (ds.foldl (fun a c => a * 10 + (c.toNat - 48)) 0, cs.dropWhile Char.isDigit)

/-- Fold a chain of `/ n` divisors onto `acc` (Python true division; division
by zero raises). -/
def evalDivChain : Nat → ℚ → List Char → Option (ℚ × List Char)
  | _, acc, [] => some (acc, [])
  | 0, _, _ => none
  | fuel + 1, acc, c :: cs =>
    if c = '/' then
      match readNat cs with
      | some (n, rest) =>
        if n = 0 then none else evalDivChain fuel (acc / (n : ℚ)) rest
      | none => none
    else some (acc, c :: cs)

/-- Evaluate one term: an integer literal followed by a chain of divisions. -/
def evalTerm (fuel : Nat) (cs : List Char) : Option (ℚ × List Char) :=
  match readNat cs with
  | some (n, rest) => evalDivChain fuel (n : ℚ) rest
  | none => none

/-- Fold a chain of `+ term` summands onto `acc`. -/
def evalAddChain : Nat → ℚ → List Char → Option (ℚ × List Char)
  | _, acc, [] => some (acc, [])
  | 0, _, _ => none
  | fuel + 1, acc, c :: cs =>
    if c = '+' then
      match evalTerm fuel cs with
      | some (t, rest) => evalAddChain fuel (acc + t) rest
      | none => none
    else some (acc, c :: cs)

/-- Model of `eval` on the arithmetic expression fragment described above. -/
def pyEval (s : String) : Option ℚ :=
  let cs := s.data
  match evalTerm (cs.length + 1) cs with
  | some (t, rest) =>
    match evalAddChain (cs.length + 1) t rest with
    | some (v, []) => some v
    | _ => none
  | none => none

/-- Modelled from the spec: the dedicated fraction parser the spec requires
for the frame-rate string ("explicit numerator/denominator parsing with
validation": accept exactly strings of the form `a/b` with integer `a` and
positive integer `b`, reject everything else).  The repository contains no
such parser — line 153 applies the generic evaluator `eval` instead — so this
definition follows the spec text and is compared against the behaviour of
the code. -/
def parseFraction (s : String) : Option ℚ :=
  match s.data.splitOn '/' with
  | [num, den] =>
    let numVal : Option ℤ :=
      match num with
      | '-' :: rest => (pyInt? rest).map (fun n => -(n : ℤ))
      | _ => (pyInt? num).map (fun n => (n : ℤ))
    match numVal, pyInt? den with
    | some a, some b => if b = 0 then none else some ((a : ℚ) / (b : ℚ))
    | _, _ => none
  | _ => none

/-! ### Data model -/

/-- One entry of `self.quality_presets` (lines 25-31): the bitrates are kept
as the strings of the source ("5000k" etc.). -/
structure Preset where
  width : Nat
  height : Nat
  bitrate : String
  audio_bitrate : String
deriving DecidableEq

/-- Embeds `self.quality_presets` (lines 25-31), an insertion-ordered dict. -/
def quality_presets : List (String × Preset) :=
  [("2160p", ⟨3840, 2160, "15000k", "192k"⟩),
   ("1080p", ⟨1920, 1080, "5000k", "128k"⟩),
   ("720p", ⟨1280, 720, "2500k", "128k"⟩),
   ("480p", ⟨854, 480, "1000k", "96k"⟩),
   ("360p", ⟨640, 360, "600k", "96k"⟩)]

/-- The catalog keys in declaration order, i.e.
`list(self.quality_presets.keys())` (line 47). -/
def catalogKeys : List String := quality_presets.map Prod.fst

/-- Position of a label in the catalog declaration order. -/
def catalogIndex (label : String) : Nat := catalogKeys.indexOf label

/-- One video / audio stream record of the ffprobe JSON output
(the "streams" entries), restricted to the fields the code reads. -/
structure StreamInfo where
  codec_type : String
  width : Option Nat := none
  height : Option Nat := none
  codec_name : Option String := none
  r_frame_rate : Option String := none
  channels : Option Nat := none
deriving DecidableEq

/-- The "format" record of the ffprobe JSON output, restricted to the
fields the code reads; numeric fields carry their parsed values. -/
structure FormatInfo where
  duration : Option ℚ := none
  size : Option Nat := none
  bit_rate : Option Nat := none
  format_name : Option String := none
deriving DecidableEq

/-- Well-formed parsed ffprobe output. -/
structure ProbeData where
  format : FormatInfo
  streams : List StreamInfo
deriving DecidableEq

/-- Outcome of one ffprobe invocation: non-zero exit
(`subprocess.CalledProcessError`), output that fails to parse as the expected
JSON shape (`json.loads` / key access raises), or well-formed output. -/
inductive ProbeOutcome where
  | exitFail
  | badOutput
  | ok (d : ProbeData)
deriving DecidableEq

/-- Python exceptions that can escape the embedded functions. -/
inductive PyError where
  | fileNotFound
  | jsonError
  | evalError
  | keyError
deriving DecidableEq

/-- The metadata dict returned by `_get_video_metadata`: a field is `none`
exactly when the corresponding key is absent (the empty dict `{}` of the
failure path has every field `none`).  A `some` value mirrors the value
stored under the key. -/
structure Metadata where
  duration : Option ℚ := none
  size : Option Nat := none
  bitrate : Option Nat := none
  format : Option String := none
  width : Option Nat := none
  height : Option Nat := none
  codec : Option String := none
  fps : Option ℚ := none
  audio_codec : Option String := none
  audio_channels : Option Nat := none
deriving DecidableEq

/-- External-world oracles for one run: whether the input file exists, the
ffprobe outcome for the source, and per-invocation ffmpeg exit status for
encodes (by label), HLS segmentation (by label), thumbnail extraction (by
1-based index) and the preview clip. -/
structure Env where
  inputExists : Bool
  probe : ProbeOutcome
  encodeOk : String → Bool
  hlsOk : String → Bool
  thumbOk : Nat → Bool
  previewOk : Bool

/-! ### `_get_video_metadata` (lines 116-164) -/

/-- Embeds `_get_video_metadata`: on non-zero ffprobe exit the
`except subprocess.CalledProcessError` branch returns the empty dict; a
malformed output raises (uncaught) from `json.loads` / key access; otherwise
the metadata dict is assembled, with `eval` applied to the frame-rate string
of the first video stream (line 153) — an `eval` failure raises uncaught. -/
def get_video_metadata (o : ProbeOutcome) : Except PyError Metadata :=
  match o with
  | .exitFail => .ok {}
  | .badOutput => .error .jsonError
  | .ok d =>
    let video := d.streams.find? (fun s => s.codec_type == "video")
    let audio := d.streams.find? (fun s => s.codec_type == "audio")
    let base : Metadata :=
      { duration := some (d.format.duration.getD 0),
        size := some (d.format.size.getD 0),
        bitrate := some (d.format.bit_rate.getD 0),
        format := d.format.format_name }
    let afterVideo : Except PyError Metadata :=
      match video with
      | none => .ok base
      | some v =>
        match pyEval (v.r_frame_rate.getD "0/1") with
        | none => .error .evalError
        | some fps =>
          .ok { base with
                width := some (v.width.getD 0),
                height := some (v.height.getD 0),
                codec := v.codec_name,
                fps := some fps }
    match afterVideo with
    | .error e => .error e
    | .ok m =>
      match audio with
      | none => .ok m
      | some a => .ok { m with audio_codec := a.codec_name, audio_channels := a.channels }

/-! ### `_transcode_resolution` (lines 166-193) and the rendition dict -/

/-- Output path of one rendition, resolution + ".mp4" inside the per-video
directory. -/
def renditionPath (res : String) : String := res ++ ".mp4"

/-- Embeds `_transcode_resolution`: the ffmpeg encode of one label; a
non-zero exit is caught and yields `None`, a zero exit yields the output
path. -/
def transcode_resolution (env : Env) (res : String) : Option String :=
  if env.encodeOk res then some (renditionPath res) else none

/-- Python dict assignment `d[k] = v` on an insertion-ordered association
list: an existing key keeps its position and gets the new value, a new key is
appended. -/
def dictInsert (k v : String) (d : List (String × String)) : List (String × String) :=
  if d.any (fun q => q.1 == k) then
    d.map (fun q => if q.1 == k then (k, v) else q)
  else d ++ [(k, v)]

/-- One iteration of the `for resolution in resolutions` loop of
`transcode_video` (lines 72-87): unknown labels are skipped with a warning,
a failed encode contributes nothing, a successful encode stores its output
path under the label. -/
def rendStep (env : Env) (d : List (String × String)) (res : String) :
    List (String × String) :=
  if (quality_presets.lookup res).isSome then
    match transcode_resolution env res with
    | some path => dictInsert res path d
    | none => d
  else d

/-- The "resolutions" dict of the results after the encode loop. -/
def buildRenditions (env : Env) (req : List String) : List (String × String) :=
  req.foldl (rendStep env) []

/-! ### `_generate_hls_playlist` (lines 195-248) -/

/-- One entry of `variant_playlists` (lines 226-230). -/
structure Variant where
  resolution : String
  bandwidth : Nat
  playlist : String
deriving DecidableEq

/-- Bandwidth-descending comparison used by
sorted(variant_playlists, key=lambda x: x["bandwidth"], reverse=True). -/
def bwGE (a b : Variant) : Prop := b.bandwidth ≤ a.bandwidth

instance : DecidableRel bwGE :=
  fun a b => inferInstanceAs (Decidable (b.bandwidth ≤ a.bandwidth))

instance : IsTotal Variant bwGE :=
  ⟨fun a b => Nat.le_total b.bandwidth a.bandwidth⟩

instance : IsTrans Variant bwGE :=
  ⟨fun _ _ _ h1 h2 => Nat.le_trans h2 h1⟩

/-- The `for resolution, video_file in resolutions.items()` loop of
`_generate_hls_playlist` (lines 206-232): each label is looked up in
`self.quality_presets` (a missing key would raise `KeyError`), the
segmentation ffmpeg run is attempted, and on success a variant entry with
bandwidth = int(preset["bitrate"].replace("k", "")) * 1000 and playlist
name resolution + ".m3u8" is appended; a non-zero exit is caught and the
variant is skipped. -/
def collectVariants (env : Env) : List (String × String) → Except PyError (List Variant)
  | [] => .ok []
  | (res, _) :: rest =>
    match quality_presets.lookup res with
    | none => .error .keyError
    | some preset =>
      match collectVariants env rest with
      | .error e => .error e
      | .ok tail =>
        if env.hlsOk res then
          .ok (⟨res, kbpsOf preset.bitrate * 1000, res ++ ".m3u8"⟩ :: tail)
        else .ok tail

/-- Path of the master playlist inside the per-video directory. -/
def masterPlaylistPath : String := "hls/master.m3u8"

/-- Embeds `_generate_hls_playlist`: collect the surviving variants, then
write the master playlist listing them sorted by bandwidth descending with
the stable Python sort (modelled by the stable `insertionSort`), and return the
master playlist path.  The returned pair carries the written variant order so
the manifest content is observable; the source always returns the master
path, even when no variant survived. -/
def generate_hls_playlist (env : Env) (resolutions : List (String × String)) :
    Except PyError (String × List Variant) :=
  match collectVariants env resolutions with
  | .error e => .error e
  | .ok vp => .ok (masterPlaylistPath, List.insertionSort bwGE vp)

/-! ### `_generate_thumbnails` (lines 250-287) -/

/-- Thumbnail file name thumb_NN.jpg (two-digit zero-padded index) inside `thumbnails/`. -/
def thumbName (i : Nat) : String :=
  "thumbnails/thumb_" ++ (if i < 10 then "0" ++ toString i else toString i) ++ ".jpg"

/-- The timestamps computed by lines 263-267: `interval = duration / (count + 1)`
and `timestamp = interval * i` for `i` in `range(1, count + 1)`. -/
def thumbnailTimestamps (duration : ℚ) (count : Nat) : List ℚ :=
  (List.range count).map (fun i : ℕ => duration / ((count : ℚ) + 1) * ((i : ℚ) + 1))

/-- Embeds `_generate_thumbnails`: re-probe the source, read
metadata.get("duration", 0), return `[]` when it is zero, otherwise attempt
one extraction per timestamp index, skipping the ones whose ffmpeg run exits
non-zero. -/
def generate_thumbnails (env : Env) (count : Nat) : Except PyError (List String) :=
  match get_video_metadata env.probe with
  | .error e => .error e
  | .ok m =>
    if m.duration.getD 0 = 0 then .ok []
    else
      .ok ((List.range count).filterMap (fun i =>
        if env.thumbOk (i + 1) then some (thumbName (i + 1)) else none))

/-! ### `_generate_preview` (lines 289-315) -/

/-- Embeds `_generate_preview`: one ffmpeg run; a non-zero exit is caught and
yields `None`. -/
def generate_preview (env : Env) : Option String :=
  if env.previewOk then some "preview.mp4" else none

/-! ### `transcode_video` (lines 33-114) -/

/-- The `results` dict of `transcode_video`, with the master playlist content
(the ordered variant list) exposed alongside its path. -/
structure RunResults where
  video_id : String
  metadata : Metadata
  resolutions : List (String × String)
  hls_playlist : String
  variants : List Variant
  thumbnails : List String
  preview : Option String
deriving DecidableEq

/-- Embeds `transcode_video`: default the requested labels to the full
catalog, raise `FileNotFoundError` for a missing input, probe the metadata
(an escaping exception aborts the run), run the encode loop, build the HLS
playlists, sample thumbnails, extract the preview, and return the populated
results dict. -/
def transcode_video (env : Env) (video_id : String)
    (resolutions : Option (List String)) : Except PyError RunResults :=
  let req := resolutions.getD catalogKeys
  if env.inputExists then
    match get_video_metadata env.probe with
    | .error e => .error e
    | .ok metadata =>
      let rend := buildRenditions env req
      match generate_hls_playlist env rend with
      | .error e => .error e
      | .ok (master, variants) =>
        match generate_thumbnails env 10 with
        | .error e => .error e
        | .ok thumbs =>
          .ok { video_id := video_id,
                metadata := metadata,
                resolutions := rend,
                hls_playlist := master,
                variants := variants,
                thumbnails := thumbs,
                preview := generate_preview env }
  else .error .fileNotFound


/-! ### Helper lemmas about the embedded operations -/

/-- A successful association-list lookup witnesses membership. -/
theorem lookup_mem {β : Type} {d : List (String × β)} {l : String} {p : β}
    (h : d.lookup l = some p) : (l, p) ∈ d := by
  induction d with
  | nil => simp [List.lookup] at h
  | cons q t ih =>
    obtain ⟨k, b⟩ := q
    rw [List.lookup] at h
    cases hbeq : (l == k) with
    | true =>
      rw [hbeq] at h
      cases h
      have : l = k := by exact eq_of_beq hbeq
      subst this
      exact List.mem_cons_self _ _
    | false =>
      rw [hbeq] at h
      exact List.mem_cons_of_mem _ (ih h)

/-- Distinct catalog labels carry distinct video bitrates, so bandwidth
determines the label among catalog presets. -/
theorem catalog_bw_inj {l1 l2 : String} {p1 p2 : Preset}
    (h1 : quality_presets.lookup l1 = some p1)
    (h2 : quality_presets.lookup l2 = some p2)
    (hbw : kbpsOf p1.bitrate = kbpsOf p2.bitrate) : l1 = l2 := by
  have key : ∀ q1 ∈ quality_presets, ∀ q2 ∈ quality_presets,
      kbpsOf q1.2.bitrate = kbpsOf q2.2.bitrate → q1.1 = q2.1 := by decide
  exact key (l1, p1) (lookup_mem h1) (l2, p2) (lookup_mem h2) hbw

/-- Membership in a Python-style dict update. -/
theorem mem_dictInsert {k v : String} {d : List (String × String)} {L p : String} :
    (L, p) ∈ dictInsert k v d ↔ (L = k ∧ p = v) ∨ (L ≠ k ∧ (L, p) ∈ d) := by
  unfold dictInsert
  by_cases h : d.any (fun q => q.1 == k) = true
  · rw [if_pos h]
    simp only [List.mem_map]
    constructor
    · rintro ⟨q, hq, hfq⟩
      by_cases hk : (q.1 == k) = true
      · rw [if_pos hk] at hfq
        cases hfq
        exact Or.inl ⟨rfl, rfl⟩
      · rw [if_neg hk] at hfq
        subst hfq
        refine Or.inr ⟨?_, hq⟩
        intro hLk
        subst hLk
        simp at hk
    · rintro (⟨hL, hp⟩ | ⟨hne, hmem⟩)
      · subst hL; subst hp
        obtain ⟨q, hq, hqk⟩ := List.any_eq_true.mp h
        exact ⟨q, hq, by rw [if_pos hqk]⟩
      · refine ⟨(L, p), hmem, ?_⟩
        rw [if_neg]
        simpa using hne
  · rw [if_neg h]
    simp only [List.mem_append, List.mem_singleton]
    constructor
    · rintro (hmem | hpair)
      · refine Or.inr ⟨?_, hmem⟩
        intro hLk
        subst hLk
        exact h (List.any_eq_true.mpr ⟨(L, p), hmem, by simp⟩)
      · cases hpair
        exact Or.inl ⟨rfl, rfl⟩
    · rintro (⟨hL, hp⟩ | ⟨_, hmem⟩)
      · subst hL; subst hp; exact Or.inr rfl
      · exact Or.inl hmem

/-- `rendStep` stores only values of the form `renditionPath key`. -/
theorem rendStep_value_consistent {env : Env} {d : List (String × String)} {r : String}
    (hd : ∀ q ∈ d, q.2 = renditionPath q.1) :
    ∀ q ∈ rendStep env d r, q.2 = renditionPath q.1 := by
  intro q hq
  unfold rendStep at hq
  by_cases hval : (quality_presets.lookup r).isSome
  · rw [if_pos hval] at hq
    unfold transcode_resolution at hq
    by_cases henc : env.encodeOk r = true
    · rw [if_pos henc] at hq
      obtain ⟨L, p⟩ := q
      rcases mem_dictInsert.mp hq with ⟨hL, hp⟩ | ⟨_, hmem⟩
      · subst hL; subst hp; rfl
      · exact hd _ hmem
    · rw [if_neg henc] at hq
      exact hd _ hq
  · rw [if_neg hval] at hq
    exact hd _ hq

/-- Membership in one step of the encode loop, given value-consistency of the
accumulator. -/
theorem mem_rendStep {env : Env} {d : List (String × String)} {r L p : String}
    (hd : ∀ q ∈ d, q.2 = renditionPath q.1) :
    (L, p) ∈ rendStep env d r ↔
      ((L, p) ∈ d ∨ (L = r ∧ (quality_presets.lookup r).isSome ∧
        env.encodeOk r = true ∧ p = renditionPath r)) := by
  unfold rendStep transcode_resolution
  by_cases hval : (quality_presets.lookup r).isSome
  · rw [if_pos hval]
    by_cases henc : env.encodeOk r = true
    · rw [if_pos henc]
      rw [mem_dictInsert]
      constructor
      · rintro (⟨hL, hp⟩ | ⟨_, hmem⟩)
        · exact Or.inr ⟨hL, hval, henc, hp⟩
        · exact Or.inl hmem
      · rintro (hmem | ⟨hL, _, _, hp⟩)
        · by_cases hLr : L = r
          · subst hLr
            exact Or.inl ⟨rfl, (hd _ hmem).symm ▸ rfl⟩
          · exact Or.inr ⟨hLr, hmem⟩
        · exact Or.inl ⟨hL, hp⟩
    · rw [if_neg henc]
      constructor
      · exact Or.inl
      · rintro (hmem | ⟨_, _, henc2, _⟩)
        · exact hmem
        · exact absurd henc2 henc
  · rw [if_neg hval]
    constructor
    · exact Or.inl
    · rintro (hmem | ⟨_, hval2, _, _⟩)
      · exact hmem
      · exact absurd hval2 hval

/-- Membership after folding the encode loop over the remaining labels. -/
theorem mem_foldl_rendStep (env : Env) :
    ∀ (req : List String) (d : List (String × String)),
      (∀ q ∈ d, q.2 = renditionPath q.1) →
      ∀ L p, ((L, p) ∈ req.foldl (rendStep env) d ↔
        ((L, p) ∈ d ∨ (L ∈ req ∧ (quality_presets.lookup L).isSome ∧
          env.encodeOk L = true ∧ p = renditionPath L))) := by
  intro req
  induction req with
  | nil => intro d _ L p; simp
  | cons r rest ih =>
    intro d hd L p
    rw [List.foldl_cons]
    rw [ih (rendStep env d r) (rendStep_value_consistent hd) L p]
    rw [mem_rendStep hd]
    constructor
    · rintro ((hmem | ⟨hL, hval, henc, hp⟩) | ⟨hmem, hval, henc, hp⟩)
      · exact Or.inl hmem
      · subst hL
        exact Or.inr ⟨List.mem_cons_self _ _, hval, henc, hp⟩
      · exact Or.inr ⟨List.mem_cons_of_mem _ hmem, hval, henc, hp⟩
    · rintro (hmem | ⟨hreq, hval, henc, hp⟩)
      · exact Or.inl (Or.inl hmem)
      · rcases List.mem_cons.mp hreq with hL | hrest
        · subst hL
          exact Or.inl (Or.inr ⟨rfl, hval, henc, hp⟩)
        · exact Or.inr ⟨hrest, hval, henc, hp⟩

/-- Characterisation of the rendition dict built by the encode loop: an entry
exists for a label exactly when the label was requested, is in the catalog,
and its encode succeeded; its value is the rendition output path. -/
theorem mem_buildRenditions {env : Env} {req : List String} {L p : String} :
    (L, p) ∈ buildRenditions env req ↔
      (L ∈ req ∧ (quality_presets.lookup L).isSome ∧
        env.encodeOk L = true ∧ p = renditionPath L) := by
  unfold buildRenditions
  rw [mem_foldl_rendStep env req [] (by simp) L p]
  simp

/-- Every key of the rendition dict is a catalog label. -/
theorem buildRenditions_valid {env : Env} {req : List String} :
    ∀ q ∈ buildRenditions env req, (quality_presets.lookup q.1).isSome := by
  intro q hq
  obtain ⟨L, p⟩ := q
  exact (mem_buildRenditions.mp hq).2.1

/-- The variant collection succeeds whenever every key is a catalog label
(which holds for every dict the encode loop can produce). -/
theorem collectVariants_isOk (env : Env) :
    ∀ (resols : List (String × String)),
      (∀ q ∈ resols, (quality_presets.lookup q.1).isSome) →
      ∃ l, collectVariants env resols = .ok l := by
  intro resols
  induction resols with
  | nil => exact fun _ => ⟨[], rfl⟩
  | cons q rest ih =>
    intro hval
    obtain ⟨res, path⟩ := q
    obtain ⟨l, hl⟩ := ih (fun q hq => hval q (List.mem_cons_of_mem _ hq))
    obtain ⟨preset, hp⟩ :=
      Option.isSome_iff_exists.mp (hval (res, path) (List.mem_cons_self _ _))
    by_cases hseg : env.hlsOk res = true
    · exact ⟨⟨res, kbpsOf preset.bitrate * 1000, res ++ ".m3u8"⟩ :: l,
        by simp [collectVariants, hp, hl, hseg]⟩
    · exact ⟨l, by simp [collectVariants, hp, hl, hseg]⟩

/-- Every collected variant comes from a surviving segmentation of a listed
rendition and carries the bandwidth and playlist name derived from its
catalog preset. -/
theorem mem_collectVariants (env : Env) :
    ∀ (resols : List (String × String)) (l : List Variant),
      collectVariants env resols = .ok l → ∀ v ∈ l,
        ∃ path preset, (v.resolution, path) ∈ resols ∧
          quality_presets.lookup v.resolution = some preset ∧
          env.hlsOk v.resolution = true ∧
          v.bandwidth = kbpsOf preset.bitrate * 1000 ∧
          v.playlist = v.resolution ++ ".m3u8" := by
  intro resols
  induction resols with
  | nil =>
    intro l h v hv
    simp only [collectVariants] at h
    cases h
    simp at hv
  | cons q rest ih =>
    intro l h v hv
    obtain ⟨res, path⟩ := q
    cases hp : quality_presets.lookup res with
    | none =>
      simp only [collectVariants, hp] at h
      exact Except.noConfusion h
    | some preset =>
      cases hrest : collectVariants env rest with
      | error e =>
        simp only [collectVariants, hp, hrest] at h
        exact Except.noConfusion h
      | ok tail =>
        by_cases hseg : env.hlsOk res = true
        · simp only [collectVariants, hp, hrest, if_pos hseg, Except.ok.injEq] at h
          subst h
          rcases List.mem_cons.mp hv with hvhead | hvtail
          · subst hvhead
            exact ⟨path, preset, List.mem_cons_self _ _, hp, hseg, rfl, rfl⟩
          · obtain ⟨path2, preset2, hmem, hlk, hsg, hbw, hpl⟩ :=
              ih tail hrest v hvtail
            exact ⟨path2, preset2, List.mem_cons_of_mem _ hmem, hlk, hsg, hbw, hpl⟩
        · simp only [collectVariants, hp, hrest, if_neg hseg, Except.ok.injEq] at h
          subst h
          obtain ⟨path2, preset2, hmem, hlk, hsg, hbw, hpl⟩ := ih tail hrest v hv
          exact ⟨path2, preset2, List.mem_cons_of_mem _ hmem, hlk, hsg, hbw, hpl⟩

/-- If every listed segmentation fails, the variant collection is empty. -/
theorem collectVariants_all_fail (env : Env) :
    ∀ (resols : List (String × String)),
      (∀ q ∈ resols, (quality_presets.lookup q.1).isSome) →
      (∀ q ∈ resols, env.hlsOk q.1 = false) →
      collectVariants env resols = .ok [] := by
  intro resols
  induction resols with
  | nil => exact fun _ _ => rfl
  | cons q rest ih =>
    intro hval hfail
    obtain ⟨res, path⟩ := q
    obtain ⟨preset, hp⟩ :=
      Option.isSome_iff_exists.mp (hval (res, path) (List.mem_cons_self _ _))
    have hrest := ih (fun q hq => hval q (List.mem_cons_of_mem _ hq))
      (fun q hq => hfail q (List.mem_cons_of_mem _ hq))
    have hseg := hfail (res, path) (List.mem_cons_self _ _)
    simp [collectVariants, hp, hrest, hseg]

/-- Unfolding a successful full run: the resolutions dict is the one built by
the encode loop, and the written variants are the stable descending sort of
the collected variants of that dict. -/
theorem transcode_video_ok_inv {env : Env} {vid : String}
    {rs : Option (List String)} {r : RunResults}
    (h : transcode_video env vid rs = .ok r) :
    r.resolutions = buildRenditions env (rs.getD catalogKeys) ∧
    r.hls_playlist = masterPlaylistPath ∧
    ∃ vp, collectVariants env r.resolutions = Except.ok vp ∧
      r.variants = List.insertionSort bwGE vp := by
  by_cases hin : env.inputExists = true
  · cases hm : get_video_metadata env.probe with
    | error e =>
      simp only [transcode_video, generate_hls_playlist, hin, if_true, hm] at h
      exact Except.noConfusion h
    | ok m =>
      cases hcv : collectVariants env (buildRenditions env (rs.getD catalogKeys)) with
      | error e =>
        simp only [transcode_video, generate_hls_playlist, hin, if_true, hm, hcv] at h
        exact Except.noConfusion h
      | ok vp =>
        cases hth : generate_thumbnails env 10 with
        | error e =>
          simp only [transcode_video, generate_hls_playlist, hin, if_true, hm, hcv, hth] at h
          exact Except.noConfusion h
        | ok ts =>
          simp only [transcode_video, generate_hls_playlist, hin, if_true, hm, hcv, hth,
            Except.ok.injEq] at h
          subst h
          exact ⟨rfl, rfl, vp, hcv, rfl⟩
  · simp only [transcode_video, hin, if_false] at h
    simp at h

/-- A run completes successfully whenever the input exists and the metadata
probe step returns (it may return the empty dict); the lemma records the
shape of every field of the result. -/
theorem transcode_video_total (env : Env) (vid : String)
    (rs : Option (List String)) (m : Metadata)
    (hin : env.inputExists = true)
    (hm : get_video_metadata env.probe = .ok m) :
    ∃ r, transcode_video env vid rs = .ok r ∧
      r.video_id = vid ∧ r.metadata = m ∧
      r.resolutions = buildRenditions env (rs.getD catalogKeys) ∧
      r.hls_playlist = masterPlaylistPath ∧
      (∃ vp, collectVariants env r.resolutions = Except.ok vp ∧
        r.variants = List.insertionSort bwGE vp) ∧
      r.thumbnails = (if m.duration.getD 0 = 0 then [] else
        (List.range 10).filterMap (fun i =>
          if env.thumbOk (i + 1) then some (thumbName (i + 1)) else none)) ∧
      r.preview = generate_preview env := by
  obtain ⟨vp, hvp⟩ := collectVariants_isOk env
    (buildRenditions env (rs.getD catalogKeys)) buildRenditions_valid
  have hth : generate_thumbnails env 10 =
      .ok (if m.duration.getD 0 = 0 then [] else
        (List.range 10).filterMap (fun i =>
          if env.thumbOk (i + 1) then some (thumbName (i + 1)) else none)) := by
    by_cases hd : m.duration.getD 0 = 0
    · simp only [generate_thumbnails, hm, if_pos hd]
    · simp only [generate_thumbnails, hm, if_neg hd]
  refine ⟨{ video_id := vid, metadata := m,
            resolutions := buildRenditions env (rs.getD catalogKeys),
            hls_playlist := masterPlaylistPath,
            variants := List.insertionSort bwGE vp,
            thumbnails := (if m.duration.getD 0 = 0 then [] else
              (List.range 10).filterMap (fun i =>
                if env.thumbOk (i + 1) then some (thumbName (i + 1)) else none)),
            preview := generate_preview env },
          ?_, rfl, rfl, rfl, rfl, ⟨vp, hvp, rfl⟩, rfl, rfl⟩
  simp only [transcode_video, generate_hls_playlist, hin, if_true, hm, hvp, hth]

/-! ### Concrete environments used in counterexamples and witnesses -/

/-- Environment whose prober exits non-zero and whose every ffmpeg invocation
succeeds. -/
def envReady : Env :=
  { inputExists := true, probe := .exitFail, encodeOk := fun _ => true,
    hlsOk := fun _ => true, thumbOk := fun _ => true, previewOk := true }

/-- Probe format record of a healthy 30-second source. -/
def fmt30 : FormatInfo :=
  { duration := some 30, size := some 1000000, bit_rate := some 800000,
    format_name := some "mp4" }

/-- Environment with a healthy probed source whose every encode fails. -/
def envEncodeAllFail : Env :=
  { inputExists := true, probe := .ok ⟨fmt30, []⟩, encodeOk := fun _ => false,
    hlsOk := fun _ => true, thumbOk := fun _ => true, previewOk := true }

/-- Environment whose every HLS segmentation invocation fails. -/
def envSegAllFail : Env :=
  { inputExists := true, probe := .ok ⟨fmt30, []⟩, encodeOk := fun _ => true,
    hlsOk := fun _ => false, thumbOk := fun _ => true, previewOk := true }

/-- Environment where exactly the 480p encode fails. -/
def envC6 : Env :=
  { inputExists := true, probe := .exitFail,
    encodeOk := fun l => !(l == "480p"),
    hlsOk := fun _ => true, thumbOk := fun _ => true, previewOk := true }

/-- The run produced by `envC6` on requested labels 720p and 480p. -/
def runC6 : RunResults :=
  { video_id := "vid", metadata := {},
    resolutions := [("720p", "720p.mp4")],
    hls_playlist := "hls/master.m3u8",
    variants := [⟨"720p", 2500000, "720p.m3u8"⟩],
    thumbnails := [], preview := some "preview.mp4" }

/-! ### Claims -/

/-- A video stream record whose frame-rate string is the non-fraction
expression "1+1". -/
def evilStream : StreamInfo :=
  { codec_type := "video", width := some 1920, height := some 1080,
    codec_name := some "h264", r_frame_rate := some "1+1" }

/-- Claim C1: the spec requires the frame-rate string to be parsed by a
dedicated fraction parser that rejects any input that is not a fraction
"a/b".  The code instead hands the string to the generic expression
evaluator `eval` (line 153): on fraction strings the two agree numerically,
but on the non-fraction expression "1+1" the evaluator accepts and executes
it, producing fps = 2 all the way into the returned metadata record, where
the required parser rejects.  This refutes the claim that a string that is
not a fraction is rejected rather than executed, and establishes the
code-level bug the spec flags. -/
theorem c1_frame_rate_evaluated_not_parsed :
    pyEval "1+1" = some 2 ∧ parseFraction "1+1" = none ∧
    pyEval "30000/1001" = some ((30000 : ℚ) / 1001) ∧
    parseFraction "30000/1001" = some ((30000 : ℚ) / 1001) ∧
    get_video_metadata (.ok ⟨fmt30, [evilStream]⟩) =
      .ok { duration := some 30, size := some 1000000, bitrate := some 800000,
            format := some "mp4", width := some 1920, height := some 1080,
            codec := some "h264", fps := some 2 } := by
  refine ⟨?_, rfl, ?_, ?_, ?_⟩
  · have h : pyEval "1+1" = some ((1 : ℚ) + 1) := rfl
    rw [h]
    norm_num
  · rfl
  · rfl
  · have h : get_video_metadata (.ok ⟨fmt30, [evilStream]⟩) =
        .ok { duration := some 30, size := some 1000000, bitrate := some 800000,
              format := some "mp4", width := some 1920, height := some 1080,
              codec := some "h264", fps := some ((1 : ℚ) + 1) } := rfl
    rw [h]
    norm_num

/-- Claim C2 counterexample: with a prober that exits non-zero, the embedded
run does not abort: the metadata step returns the empty dict and the run
continues through the encode, manifest, thumbnail and preview stages,
returning a populated result with a rendition and a manifest variant. -/
theorem c2_probe_failure_run_continues :
    transcode_video envReady "vid" (some ["720p"]) =
      .ok { video_id := "vid", metadata := {},
            resolutions := [("720p", "720p.mp4")],
            hls_playlist := "hls/master.m3u8",
            variants := [⟨"720p", 2500000, "720p.m3u8"⟩],
            thumbnails := [], preview := some "preview.mp4" } := rfl

/-- Claim C2 (amended): a metadata probe whose output is malformed raises an
uncaught error that aborts the whole run early; but a prober that merely
exits non-zero is caught inside the metadata step, which returns the empty
metadata dict, and the run continues through every later stage (renditions,
manifest, thumbnails, preview) instead of aborting. -/
theorem c2_amended_probe_failure (env : Env) (vid : String)
    (rs : Option (List String)) (hin : env.inputExists = true) :
    (env.probe = .badOutput → transcode_video env vid rs = .error .jsonError) ∧
    (env.probe = .exitFail → ∃ r, transcode_video env vid rs = .ok r ∧
      r.metadata = ({} : Metadata) ∧ r.thumbnails = [] ∧
      r.resolutions = buildRenditions env (rs.getD catalogKeys) ∧
      r.preview = generate_preview env) := by
  constructor
  · intro hbad
    simp only [transcode_video, hin, if_true, get_video_metadata, hbad]
  · intro hfailp
    have hm : get_video_metadata env.probe = .ok ({} : Metadata) := by
      rw [hfailp]
      rfl
    obtain ⟨r, hr, hvid, hmet, hres, hhls, hvp, hth, hprev⟩ :=
      transcode_video_total env vid rs ({} : Metadata) hin hm
    refine ⟨r, hr, hmet, ?_, hres, hprev⟩
    rw [hth]
    simp

/-- Claim C2 amended witness at a concrete input. -/
theorem c2_amended_probe_failure_witness :
    (envReady.probe = ProbeOutcome.badOutput →
      transcode_video envReady "vid" (some ["720p"]) = .error .jsonError) ∧
    (envReady.probe = ProbeOutcome.exitFail →
      ∃ r, transcode_video envReady "vid" (some ["720p"]) = .ok r ∧
        r.metadata = ({} : Metadata) ∧ r.thumbnails = [] ∧
        r.resolutions =
          buildRenditions envReady ((some ["720p"]).getD catalogKeys) ∧
        r.preview = generate_preview envReady) :=
  c2_amended_probe_failure envReady "vid" (some ["720p"]) rfl

/-- Claim C3 counterexample: with every encode failing, zero variants
succeed, yet the builder still writes and returns the master playlist (with
an empty variant list) instead of an error; the run completes with valid
metadata, all ten thumbnails and the preview. -/
theorem c3_zero_variants_still_writes_master :
    transcode_video envEncodeAllFail "vid" none =
      .ok { video_id := "vid",
            metadata := { duration := some 30, size := some 1000000,
                          bitrate := some 800000, format := some "mp4" },
            resolutions := [],
            hls_playlist := "hls/master.m3u8",
            variants := [],
            thumbnails := ["thumbnails/thumb_01.jpg", "thumbnails/thumb_02.jpg",
              "thumbnails/thumb_03.jpg", "thumbnails/thumb_04.jpg",
              "thumbnails/thumb_05.jpg", "thumbnails/thumb_06.jpg",
              "thumbnails/thumb_07.jpg", "thumbnails/thumb_08.jpg",
              "thumbnails/thumb_09.jpg", "thumbnails/thumb_10.jpg"],
            preview := some "preview.mp4" } := rfl

/-- Claim C3 (amended): when zero variants survive segmentation — in
particular when the rendition set is empty — the builder does not signal an
error: it still returns the master playlist path with an empty written
variant list (a header-only master manifest).  Independent stages
(metadata, thumbnails, preview) are unaffected, as the counterexample run
shows concretely. -/
theorem c3_amended_zero_variants (env : Env) (resols : List (String × String))
    (hval : ∀ q ∈ resols, (quality_presets.lookup q.1).isSome)
    (hfail : ∀ q ∈ resols, env.hlsOk q.1 = false) :
    generate_hls_playlist env resols = .ok (masterPlaylistPath, []) := by
  rw [generate_hls_playlist, collectVariants_all_fail env resols hval hfail]
  rfl

/-- Claim C3 amended witness at a concrete input. -/
theorem c3_amended_zero_variants_witness :
    generate_hls_playlist envSegAllFail [("720p", "720p.mp4")] =
      .ok (masterPlaylistPath, []) :=
  c3_amended_zero_variants envSegAllFail [("720p", "720p.mp4")]
    (by decide) (by decide)

/-- Claim C4: for every successful manifest build with a non-empty variant
list, the written variant order is non-increasing in bandwidth, and any two
variants with equal bandwidth appear in catalog declaration order (among
catalog presets equal bandwidth forces equal label, so the stable sort keeps
the tie-break trivially). -/
theorem c4_manifest_bandwidth_order (env : Env) (resols : List (String × String))
    (master : String) (vs : List Variant)
    (h : generate_hls_playlist env resols = .ok (master, vs)) (hne : vs ≠ []) :
    vs.Pairwise (fun a b => b.bandwidth ≤ a.bandwidth ∧
      (a.bandwidth = b.bandwidth →
        catalogIndex a.resolution ≤ catalogIndex b.resolution)) := by
  cases hcv : collectVariants env resols with
  | error e =>
    simp only [generate_hls_playlist, hcv] at h
    exact Except.noConfusion h
  | ok vp =>
    simp only [generate_hls_playlist, hcv, Except.ok.injEq, Prod.mk.injEq] at h
    obtain ⟨hmaster, hvs⟩ := h
    subst hvs
    have hsorted : (List.insertionSort bwGE vp).Pairwise bwGE :=
      List.sorted_insertionSort bwGE vp
    have htie : ∀ a ∈ List.insertionSort bwGE vp, ∀ b ∈ List.insertionSort bwGE vp,
        a.bandwidth = b.bandwidth →
        catalogIndex a.resolution ≤ catalogIndex b.resolution := by
      intro a ha b hb hab
      obtain ⟨patha, pa, _, hlka, _, hbwa, _⟩ := mem_collectVariants env resols vp hcv a
        ((List.perm_insertionSort bwGE vp).mem_iff.mp ha)
      obtain ⟨pathb, pb, _, hlkb, _, hbwb, _⟩ := mem_collectVariants env resols vp hcv b
        ((List.perm_insertionSort bwGE vp).mem_iff.mp hb)
      have hk : kbpsOf pa.bitrate = kbpsOf pb.bitrate := by
        have : kbpsOf pa.bitrate * 1000 = kbpsOf pb.bitrate * 1000 := by
          rw [← hbwa, ← hbwb, hab]
        exact Nat.eq_of_mul_eq_mul_right (by norm_num) this
      rw [catalog_bw_inj hlka hlkb hk]
    exact hsorted.and (List.pairwise_of_forall_mem_list htie)

/-- Claim C4 witness at a concrete input: two renditions listed in ascending
bandwidth order are reordered descending by the build. -/
theorem c4_manifest_bandwidth_order_witness :
    ([⟨"1080p", 5000000, "1080p.m3u8"⟩, ⟨"720p", 2500000, "720p.m3u8"⟩] :
      List Variant).Pairwise (fun a b => b.bandwidth ≤ a.bandwidth ∧
        (a.bandwidth = b.bandwidth →
          catalogIndex a.resolution ≤ catalogIndex b.resolution)) :=
  c4_manifest_bandwidth_order envReady [("720p", "720p.mp4"), ("1080p", "1080p.mp4")]
    masterPlaylistPath
    [⟨"1080p", 5000000, "1080p.m3u8"⟩, ⟨"720p", 2500000, "720p.m3u8"⟩]
    rfl (by simp)

/-- Claim C5: every variant written to the master manifest declares
bandwidth equal to its catalog preset video bitrate in kbps times 1000 (the
audio bitrate does not enter), and concretely, with the 1080p, 720p and 480p
renditions all succeeding, the written variant order is exactly 1080p, 720p,
480p with bandwidths 5000000, 2500000, 1000000. -/
theorem c5_variant_bandwidth (env : Env) (resols : List (String × String))
    (master : String) (vs : List Variant)
    (h : generate_hls_playlist env resols = .ok (master, vs)) :
    (∀ v ∈ vs, ∃ preset, quality_presets.lookup v.resolution = some preset ∧
        v.bandwidth = kbpsOf preset.bitrate * 1000) ∧
    generate_hls_playlist envReady
        [("1080p", "1080p.mp4"), ("720p", "720p.mp4"), ("480p", "480p.mp4")] =
      .ok (masterPlaylistPath,
        [⟨"1080p", 5000000, "1080p.m3u8"⟩, ⟨"720p", 2500000, "720p.m3u8"⟩,
         ⟨"480p", 1000000, "480p.m3u8"⟩]) := by
  constructor
  · cases hcv : collectVariants env resols with
    | error e =>
      simp only [generate_hls_playlist, hcv] at h
      exact Except.noConfusion h
    | ok vp =>
      simp only [generate_hls_playlist, hcv, Except.ok.injEq, Prod.mk.injEq] at h
      obtain ⟨hmaster, hvs⟩ := h
      subst hvs
      intro v hv
      obtain ⟨path, preset, _, hlk, _, hbw, _⟩ := mem_collectVariants env resols vp hcv v
        ((List.perm_insertionSort bwGE vp).mem_iff.mp hv)
      exact ⟨preset, hlk, hbw⟩
  · rfl

/-- Claim C5 witness at a concrete input. -/
theorem c5_variant_bandwidth_witness :
    (∀ v ∈ ([⟨"480p", 1000000, "480p.m3u8"⟩] : List Variant),
      ∃ preset, quality_presets.lookup v.resolution = some preset ∧
        v.bandwidth = kbpsOf preset.bitrate * 1000) ∧
    generate_hls_playlist envReady
        [("1080p", "1080p.mp4"), ("720p", "720p.mp4"), ("480p", "480p.mp4")] =
      .ok (masterPlaylistPath,
        [⟨"1080p", 5000000, "1080p.m3u8"⟩, ⟨"720p", 2500000, "720p.m3u8"⟩,
         ⟨"480p", 1000000, "480p.m3u8"⟩]) :=
  c5_variant_bandwidth envReady [("480p", "480p.mp4")] masterPlaylistPath
    [⟨"480p", 1000000, "480p.m3u8"⟩] rfl

/-- Claim C6: in every successful run, a label whose encode fails has no
entry in the resolutions dict and no variant in the master manifest, while
every requested catalog label whose encode succeeds does get its entry, so a
failed rendition neither appears nor prevents the others. -/
theorem c6_failed_encode_excluded (env : Env) (vid : String) (req : List String)
    (r : RunResults) (L : String)
    (h : transcode_video env vid (some req) = .ok r)
    (hfail : env.encodeOk L = false) :
    (∀ p, (L, p) ∉ r.resolutions) ∧
    (∀ v ∈ r.variants, v.resolution ≠ L) ∧
    (∀ M, M ∈ req → (quality_presets.lookup M).isSome → env.encodeOk M = true →
      (M, renditionPath M) ∈ r.resolutions) := by
  obtain ⟨hres, hmaster, vp, hcv, hvar⟩ := transcode_video_ok_inv h
  have hgetD : (some req : Option (List String)).getD catalogKeys = req := rfl
  rw [hgetD] at hres
  refine ⟨?_, ?_, ?_⟩
  · intro p hp
    rw [hres] at hp
    have hx := (mem_buildRenditions.mp hp).2.2.1
    rw [hfail] at hx
    exact Bool.noConfusion hx
  · intro v hv hvL
    rw [hvar] at hv
    obtain ⟨path, preset, hmem, _, _, _, _⟩ := mem_collectVariants env r.resolutions vp hcv v
      ((List.perm_insertionSort bwGE vp).mem_iff.mp hv)
    rw [hres] at hmem
    have hx := (mem_buildRenditions.mp hmem).2.2.1
    rw [hvL, hfail] at hx
    exact Bool.noConfusion hx
  · intro M hM hval henc
    rw [hres]
    exact mem_buildRenditions.mpr ⟨hM, hval, henc, rfl⟩

/-- Claim C6 witness at a concrete input: the 480p encode fails, 480p
appears neither in the resolutions dict nor in the manifest, and 720p still
succeeds. -/
theorem c6_failed_encode_excluded_witness :
    (∀ p, ("480p", p) ∉ runC6.resolutions) ∧
    (∀ v ∈ runC6.variants, v.resolution ≠ "480p") ∧
    (∀ M, M ∈ ["720p", "480p"] → (quality_presets.lookup M).isSome →
      envC6.encodeOk M = true → (M, renditionPath M) ∈ runC6.resolutions) :=
  c6_failed_encode_excluded envC6 "vid" ["720p", "480p"] runC6 "480p" rfl rfl

/-- Claim C7: a requested label that is not in the catalog does not abort
the run: the run still completes, the unknown label has no entry in the
resolutions dict, and every requested catalog label whose encode succeeds is
still processed. -/
theorem c7_unknown_label_skipped (env : Env) (vid : String) (req : List String)
    (m : Metadata) (L : String)
    (hin : env.inputExists = true)
    (hm : get_video_metadata env.probe = .ok m)
    (hunk : quality_presets.lookup L = none)
    (_hL : L ∈ req) :
    ∃ r, transcode_video env vid (some req) = .ok r ∧
      (∀ p, (L, p) ∉ r.resolutions) ∧
      (∀ M, M ∈ req → (quality_presets.lookup M).isSome → env.encodeOk M = true →
        (M, renditionPath M) ∈ r.resolutions) := by
  obtain ⟨r, hr, hvid, hmet, hres, hhls, hvp, hth, hprev⟩ :=
    transcode_video_total env vid (some req) m hin hm
  have hgetD : (some req : Option (List String)).getD catalogKeys = req := rfl
  rw [hgetD] at hres
  refine ⟨r, hr, ?_, ?_⟩
  · intro p hp
    rw [hres] at hp
    have hx := (mem_buildRenditions.mp hp).2.1
    rw [hunk] at hx
    exact Bool.noConfusion hx
  · intro M hM hval henc
    rw [hres]
    exact mem_buildRenditions.mpr ⟨hM, hval, henc, rfl⟩

/-- Claim C7 witness at a concrete input: the unknown label 999p is skipped
while 720p is still processed. -/
theorem c7_unknown_label_skipped_witness :
    ∃ r, transcode_video envReady "vid" (some ["999p", "720p"]) = .ok r ∧
      (∀ p, ("999p", p) ∉ r.resolutions) ∧
      (∀ M, M ∈ ["999p", "720p"] → (quality_presets.lookup M).isSome →
        envReady.encodeOk M = true → (M, renditionPath M) ∈ r.resolutions) :=
  c7_unknown_label_skipped envReady "vid" ["999p", "720p"] {} "999p"
    rfl rfl rfl (by simp)

/-- Claim C8: for a positive duration and count at least 1, the thumbnail
timestamps are exactly count values, the i-th (1-based) equal to
duration / (count + 1) * i, strictly increasing and strictly between 0 and
the duration; in particular for duration 30 and count 10 they are 30/11,
60/11, ..., 300/11 (exactly, hence within the stated tolerance). -/
theorem c8_thumbnail_timestamps (duration : ℚ) (count : Nat)
    (hd : 0 < duration) (_hc : 1 ≤ count) :
    (thumbnailTimestamps duration count).length = count ∧
    (∀ i, i < count → (thumbnailTimestamps duration count).getD i 0 =
      duration / ((count : ℚ) + 1) * ((i : ℚ) + 1)) ∧
    (thumbnailTimestamps duration count).Pairwise (fun a b => a < b) ∧
    (∀ t ∈ thumbnailTimestamps duration count, 0 < t ∧ t < duration) ∧
    thumbnailTimestamps 30 10 =
      [30/11, 60/11, 90/11, 120/11, 150/11, 180/11, 210/11, 240/11, 270/11,
       300/11] := by
  have hbpos : (0 : ℚ) < duration / ((count : ℚ) + 1) :=
    div_pos hd (by positivity)
  refine ⟨by simp [thumbnailTimestamps], ?_, ?_, ?_, ?_⟩
  · intro i hi
    have hlen : i < (thumbnailTimestamps duration count).length := by
      simpa [thumbnailTimestamps] using hi
    rw [List.getD_eq_getElem _ _ hlen]
    simp [thumbnailTimestamps]
  · unfold thumbnailTimestamps
    rw [List.pairwise_map]
    refine (List.pairwise_lt_range count).imp ?_
    intro a b hab
    have hcast : ((a : ℚ) + 1) < ((b : ℚ) + 1) := by
      have := (Nat.cast_lt (α := ℚ)).mpr hab
      linarith
    exact mul_lt_mul_of_pos_left hcast hbpos
  · intro t ht
    unfold thumbnailTimestamps at ht
    obtain ⟨i, hi, rfl⟩ := List.mem_map.mp ht
    have hirange := List.mem_range.mp hi
    constructor
    · exact mul_pos hbpos (by positivity)
    · have h1 : ((i : ℚ) + 1) < ((count : ℚ) + 1) := by
        have := (Nat.cast_lt (α := ℚ)).mpr hirange
        linarith
      have h2 := mul_lt_mul_of_pos_left h1 hbpos
      have h3 : duration / ((count : ℚ) + 1) * ((count : ℚ) + 1) = duration := by
        field_simp
      calc duration / ((count : ℚ) + 1) * ((i : ℚ) + 1)
          < duration / ((count : ℚ) + 1) * ((count : ℚ) + 1) := h2
        _ = duration := h3
  · unfold thumbnailTimestamps
    simp [List.range_succ]
    norm_num

/-- Claim C8 witness at the concrete input of the claim. -/
theorem c8_thumbnail_timestamps_witness :
    (0 : ℚ) < 30 ∧ 1 ≤ 10 ∧ (thumbnailTimestamps 30 10).length = 10 :=
  ⟨by norm_num, by norm_num,
    (c8_thumbnail_timestamps 30 10 (by norm_num) (by norm_num)).1⟩

/-- Claim C9: whenever the metadata probe step returns a dict whose duration
entry is absent or zero, thumbnail generation returns the empty list for any
requested count, without raising. -/
theorem c9_zero_duration_no_thumbnails (env : Env) (count : Nat) (m : Metadata)
    (hm : get_video_metadata env.probe = .ok m)
    (hdur : m.duration.getD 0 = 0) :
    generate_thumbnails env count = .ok [] := by
  simp only [generate_thumbnails, hm, if_pos hdur]

/-- Claim C9 witness at a concrete input (prober exits non-zero, so the
metadata dict is empty and the duration is unknown). -/
theorem c9_zero_duration_no_thumbnails_witness :
    get_video_metadata envReady.probe = .ok ({} : Metadata) ∧
    (({} : Metadata).duration.getD 0 = 0) ∧
    generate_thumbnails envReady 10 = .ok [] :=
  ⟨rfl, rfl, c9_zero_duration_no_thumbnails envReady 10 {} rfl rfl⟩

/-- Claim C10: when no resolutions argument is supplied, the requested
labels default to the full catalog in declaration order — 2160p, 1080p,
720p, 480p, 360p — so a run with the argument omitted equals a run
requesting exactly that five-tier ladder. -/
theorem c10_default_resolutions (env : Env) (vid : String) :
    catalogKeys = ["2160p", "1080p", "720p", "480p", "360p"] ∧
    transcode_video env vid none =
      transcode_video env vid (some ["2160p", "1080p", "720p", "480p", "360p"]) :=
  ⟨rfl, rfl⟩

end VideoTranscoder
